import Mathlib

/-!
Verification of the vader recipe-resolution/execution engine and the `mo`
variable-change leaf kernels against their specification.

Numeric model: the C++ kernels compute on `double`; point values are modelled
as rationals (`ℚ`), which represents the exact arithmetic the formulas denote.
Division by zero (a NaN in C++) is the usual Lean convention `x / 0 = 0` and is
outside the claims under study.  Transcendental primitives (`log`, `pow` with a
real exponent) that appear in one kernel are abstracted as an explicit
parameter structure so that every definition stays executable.
-/

namespace VaderSpec

/-- A single metadata entry of a field: the excerpt uses boolean flags
(`cap_super_sat`) and index values (`boundary_layer_index`). -/
inductive MetaVal where
  | b (v : Bool)
  | n (v : Nat)
deriving DecidableEq

/-- A named numeric array: horizontal extent (`shape(0)`), number of vertical
levels (`levels()`), the point values, and the metadata bag. -/
structure Field where
  npoints : Nat
  nlevels : Nat
  vals : Nat → Nat → ℚ
  metadata : List (String × MetaVal)

/-- The field store: a named container of fields (spec section 6: the core only
uses `get(name)`, presence testing, and in-place replacement). -/
def FieldSet : Type := String → Option Field

/-- Replace the field stored under `k`. -/
def FieldSet.set (fs : FieldSet) (k : String) (f : Field) : FieldSet :=
  fun n => if n = k then some f else fs n

/-- Read the field stored under `k`. -/
def FieldSet.lookup (fs : FieldSet) (k : String) : Option Field := fs k

/-- C++ `fields["f"].metadata().has(key)` / `get(key, boolVar)` combination as
used in `evalRelativeHumidity` (model2geovals_varchange.cc lines 125-129):
the flag variable starts `false` and is overwritten only when the key is
present (with a boolean value). -/
def getFlag (f : Field) (k : String) : Bool :=
  match f.metadata.lookup k with
  | some (MetaVal.b v) => v
  | _ => false

/-- C++ `metadata().get(key, sizeTVar)`: yields the stored index.  When the key
is absent the C++ call leaves the variable unset (an uninitialised read in
`evalParamAParamB`); the unset value is modelled as `0`. -/
def getNatMeta (f : Field) (k : String) : Nat :=
  match f.metadata.lookup k with
  | some (MetaVal.n v) => v
  | _ => 0

/-- Modelled from the spec: `checkFieldSetContent` lives in mo/utils (not part
of the excerpt); per spec section 6 a missing required field name is a hard
validation error, so kernels return `none` when it fails. -/
def checkFieldSetContent (fs : FieldSet) (names : List String) : Bool :=
  names.all (fun n => (fs.lookup n).isSome)

/-! ### Leaf kernels (src/mo/model2geovals_varchange.cc)

Each kernel is `FieldSet → Option (FieldSet × Bool)`: `none` models the hard
validation failure of `checkFieldSetContent` on a missing field, and the `Bool`
is the C++ return value.  `parallelFor` over the product field's function space
and level count is modelled as a pointwise update guarded by the product
field's own extents. -/

/-- `evalTotalMassMoistAir` (lines 44-70): `m_t(i,j) = 1 + m_v + m_ci + m_cl + m_r`. -/
def evalTotalMassMoistAir (fields : FieldSet) : Option (FieldSet × Bool) :=
  match fields.lookup "m_v", fields.lookup "m_ci", fields.lookup "m_cl",
        fields.lookup "m_r", fields.lookup "m_t" with
  | some mv, some mci, some mcl, some mr, some mt =>
    let newVals : Nat → Nat → ℚ := fun i j =>
      if i < mt.npoints ∧ j < mt.nlevels then
        1 + mv.vals i j + mci.vals i j + mcl.vals i j + mr.vals i j
      else mt.vals i j
    some (fields.set "m_t" { mt with vals := newVals }, true)
  | _, _, _, _, _ => none

/-- `evalRelativeHumidity` (lines 117-150).  The two source statements
`rh = fmax(q/qsat*100, 0); rh = (cap_super_sat && rh > 100) ? 100 : rh`
are fused into one expression per point. -/
def evalRelativeHumidity (fields : FieldSet) : Option (FieldSet × Bool) :=
  match fields.lookup "specific_humidity", fields.lookup "qsat",
        fields.lookup "relative_humidity" with
  | some q, some qsat, some rh =>
    let cap := getFlag rh "cap_super_sat"
    let newVals : Nat → Nat → ℚ := fun i j =>
      if i < rh.npoints ∧ j < rh.nlevels then
        if cap ∧ 100 < max (q.vals i j / qsat.vals i j * 100) 0 then 100
        else max (q.vals i j / qsat.vals i j * 100) 0
      else rh.vals i j
    some (fields.set "relative_humidity" { rh with vals := newVals }, true)
  | _, _, _ => none

/-- `evalTotalRelativeHumidity` (lines 152-186): writes
`(q + qcl + qci + qrain)/qsat * 100`, then clips negative values to `0`.
No metadata flag is consulted and no upper cap is applied. -/
def evalTotalRelativeHumidity (fields : FieldSet) : Option (FieldSet × Bool) :=
  match fields.lookup "specific_humidity",
        fields.lookup "mass_content_of_cloud_liquid_water_in_atmosphere_layer",
        fields.lookup "mass_content_of_cloud_ice_in_atmosphere_layer",
        fields.lookup "qrain", fields.lookup "qsat", fields.lookup "rht" with
  | some q, some qcl, some qci, some qrain, some qsat, some rht =>
    let newVals : Nat → Nat → ℚ := fun i j =>
      if i < rht.npoints ∧ j < rht.nlevels then
        if (q.vals i j + qcl.vals i j + qci.vals i j + qrain.vals i j)
             / qsat.vals i j * 100 < 0 then 0
        else (q.vals i j + qcl.vals i j + qci.vals i j + qrain.vals i j)
             / qsat.vals i j * 100
      else rht.vals i j
    some (fields.set "rht" { rht with vals := newVals }, true)
  | _, _, _, _, _, _ => none

/-- `evalAirTemperature` (lines 235-259): `air_temperature(i,j) = theta * exner`. -/
def evalAirTemperature (fields : FieldSet) : Option (FieldSet × Bool) :=
  match fields.lookup "theta", fields.lookup "exner",
        fields.lookup "air_temperature" with
  | some theta, some exner, some atemp =>
    let newVals : Nat → Nat → ℚ := fun i j =>
      if i < atemp.npoints ∧ j < atemp.nlevels then
        theta.vals i j * exner.vals i j
      else atemp.vals i j
    some (fields.set "air_temperature" { atemp with vals := newVals }, true)
  | _, _, _ => none

/-- Transcendental primitives used by `evalParamAParamB`: `log` and `pow`
(mo/utils is outside the excerpt and these are irrational on ℚ), kept abstract
so the kernel's structure stays executable and exact. -/
structure RealOps where
  rlog : ℚ → ℚ
  rpow : ℚ → ℚ → ℚ

/-- The `mo::Constants` values used by `evalParamAParamB` (their numeric values
live in mo/constants outside the excerpt). -/
structure MoConstants where
  grav : ℚ
  rd : ℚ
  Lclr : ℚ
  c_virtual : ℚ

/-- `evalParamAParamB` (lines 322-370).  When the `boundary_layer_index`
metadata key is absent from the `height` field the source only emits
`oops::Log::error` (lines 333-337) and then calls `metadata().get`
unconditionally, leaving `blindex` unset; the unset read is modelled by
`getNatMeta`'s default.  Execution continues and the function returns `true`.
The two source assignments to `t_bl` are fused. -/
def evalParamAParamB (ops : RealOps) (cst : MoConstants) (fields : FieldSet) :
    Option (FieldSet × Bool) :=
  match fields.lookup "height", fields.lookup "height_levels",
        fields.lookup "air_pressure_levels_minus_one",
        fields.lookup "specific_humidity",
        fields.lookup "param_a", fields.lookup "param_b" with
  | some height, some heightLevels, some pressureLevels, some specificHumidity,
    some param_a, some param_b =>
    let blindex := getNatMeta height "boundary_layer_index"
    let exp_pmsh := cst.Lclr * cst.rd / cst.grav
    let t_bl : Nat → ℚ := fun jn =>
      (-cst.grav / cst.rd) *
        (heightLevels.vals jn (blindex + 1) - heightLevels.vals jn blindex) /
        ops.rlog (pressureLevels.vals jn (blindex + 1) /
                  pressureLevels.vals jn blindex) /
        (1 + cst.c_virtual * specificHumidity.vals jn blindex)
    let t_msh : Nat → ℚ := fun jn =>
      t_bl jn + cst.Lclr * (height.vals jn blindex - heightLevels.vals jn 0)
    let aVals : Nat → Nat → ℚ := fun jn j =>
      if jn < param_a.npoints ∧ j = 0 then
        heightLevels.vals jn 0 + t_msh jn / cst.Lclr
      else param_a.vals jn j
    let bVals : Nat → Nat → ℚ := fun jn j =>
      if jn < param_a.npoints ∧ j = 0 then
        t_msh jn / (ops.rpow (pressureLevels.vals jn 0) exp_pmsh * cst.Lclr)
      else param_b.vals jn j
    some (((fields.set "param_a" { param_a with vals := aVals }).set
             "param_b" { param_b with vals := bVals }), true)
  | _, _, _, _, _, _ => none

/-! ### Which kernels validate their inputs (claim about checkFieldSetContent)

For each NL leaf kernel of model2geovals_varchange.cc: the field names it
passes to `checkFieldSetContent` (empty when the kernel makes no such call) and
the field names it actually reads or writes through `fields[...]`.  The
helper `evalRatioToMt` is not listed: it receives its names from its callers,
whose entries account for its accesses. -/
structure KernelSig where
  kname : String
  checked : List String
  accessed : List String
deriving DecidableEq

/-- Lines 44-70. -/
def evalTotalMassMoistAirSig : KernelSig :=
  ⟨"evalTotalMassMoistAir",
   ["m_v", "m_ci", "m_cl", "m_r", "m_t"],
   ["m_v", "m_ci", "m_cl", "m_r", "m_t"]⟩

/-- Lines 103-115 (accesses happen through `evalRatioToMt fnames`). -/
def evalSpecificHumiditySig : KernelSig :=
  ⟨"evalSpecificHumidity",
   ["m_v", "m_t", "specific_humidity"],
   ["m_v", "m_t", "specific_humidity"]⟩

/-- Lines 117-150. -/
def evalRelativeHumiditySig : KernelSig :=
  ⟨"evalRelativeHumidity",
   ["specific_humidity", "qsat", "relative_humidity"],
   ["specific_humidity", "qsat", "relative_humidity"]⟩

/-- Lines 152-186. -/
def evalTotalRelativeHumiditySig : KernelSig :=
  ⟨"evalTotalRelativeHumidity",
   ["specific_humidity", "mass_content_of_cloud_liquid_water_in_atmosphere_layer",
    "mass_content_of_cloud_ice_in_atmosphere_layer", "qrain", "qsat", "rht"],
   ["specific_humidity", "mass_content_of_cloud_liquid_water_in_atmosphere_layer",
    "mass_content_of_cloud_ice_in_atmosphere_layer", "qrain", "qsat", "rht"]⟩

/-- Lines 188-201. -/
def evalMassCloudIceSig : KernelSig :=
  ⟨"evalMassCloudIce",
   ["m_ci", "m_t", "mass_content_of_cloud_ice_in_atmosphere_layer"],
   ["m_ci", "m_t", "mass_content_of_cloud_ice_in_atmosphere_layer"]⟩

/-- Lines 204-217. -/
def evalMassCloudLiquidSig : KernelSig :=
  ⟨"evalMassCloudLiquid",
   ["m_cl", "m_t", "mass_content_of_cloud_liquid_water_in_atmosphere_layer"],
   ["m_cl", "m_t", "mass_content_of_cloud_liquid_water_in_atmosphere_layer"]⟩

/-- Lines 220-232. -/
def evalMassRainSig : KernelSig :=
  ⟨"evalMassRain", ["m_r", "m_t", "qrain"], ["m_r", "m_t", "qrain"]⟩

/-- Lines 235-259. -/
def evalAirTemperatureSig : KernelSig :=
  ⟨"evalAirTemperature",
   ["theta", "exner", "air_temperature"],
   ["theta", "exner", "air_temperature"]⟩

/-- Lines 262-288: no `checkFieldSetContent` call appears in this kernel; it
builds its views directly. -/
def evalAirPressureLevelsSig : KernelSig :=
  ⟨"evalAirPressureLevels",
   [],
   ["exner_levels_minus_one", "air_pressure_levels_minus_one", "theta",
    "height_levels", "air_pressure_levels"]⟩

/-- Lines 291-319. -/
def evalSpecificHumidityFromRH_2mSig : KernelSig :=
  ⟨"evalSpecificHumidityFromRH_2m",
   ["qsat", "relative_humidity_2m", "specific_humidity_at_two_meters_above_surface"],
   ["qsat", "relative_humidity_2m", "specific_humidity_at_two_meters_above_surface"]⟩

/-- Lines 322-370. -/
def evalParamAParamBSig : KernelSig :=
  ⟨"evalParamAParamB",
   ["height", "height_levels", "air_pressure_levels_minus_one",
    "specific_humidity", "param_a", "param_b"],
   ["height", "height_levels", "air_pressure_levels_minus_one",
    "specific_humidity", "param_a", "param_b"]⟩

/-- All NL leaf kernels of model2geovals_varchange.cc, in source order. -/
def moNLKernelSigs : List KernelSig :=
  [evalTotalMassMoistAirSig, evalSpecificHumiditySig, evalRelativeHumiditySig,
   evalTotalRelativeHumiditySig, evalMassCloudIceSig, evalMassCloudLiquidSig,
   evalMassRainSig, evalAirTemperatureSig, evalAirPressureLevelsSig,
   evalSpecificHumidityFromRH_2mSig, evalParamAParamBSig]

/-! ### Recipe parameter declarations (src/vader) -/

/-- One `oops` parameter declaration: its configuration key and whether it is a
`RequiredParameter` (as opposed to a `Parameter` carrying a default). -/
structure ParamDecl where
  key : String
  required : Bool
deriving DecidableEq

/-- `AirPressureToKappa_AParameters` (AirPressureToKappa.h lines 25-31):
`oops::RequiredParameter<std::string> name{"recipe name", this}` and
`oops::Parameter<double> kappa{"kappa", "kappa", 0.28571428571428570, this}`. -/
def airPressureToKappa_AParameters : List ParamDecl :=
  [⟨"recipe name", true⟩, ⟨"kappa", false⟩]

/-- Does a parameter set contain a required (no-default) parameter? -/
def hasRequiredParam (ps : List ParamDecl) : Bool :=
  ps.any (fun p => p.required)

/-! ### RecipeBase virtual defaults (src/vader/RecipeBase.h) -/

/-- A concrete recipe class seen through the two overridable virtual methods of
`RecipeBase` relevant to the setup lifecycle; `none` means the class does not
override the base-class default. -/
structure RecipeOverrides where
  requiresSetupImpl : Option Bool
  setupImpl : Option (FieldSet → Bool)

/-- Virtual dispatch for `requiresSetup` (RecipeBase.h line 40:
`virtual bool requiresSetup() { return false; }`). -/
def recipeRequiresSetup (o : RecipeOverrides) : Bool :=
  o.requiresSetupImpl.getD false

/-- Virtual dispatch for `setup` (RecipeBase.h line 41:
`virtual bool setup(atlas::FieldSet *) { return true; }`). -/
def recipeSetup (o : RecipeOverrides) (fs : FieldSet) : Bool :=
  (o.setupImpl.getD (fun _ => true)) fs

/-! ### Resolver and Executor

Modelled from the spec: the Resolver/Executor sources are not part of the
excerpt (src holds only RecipeBase.h, VaderParameters.h and recipe headers),
so the engine below follows spec sections 4.1-4.4 and 7 literally. -/

/-- A transformation unit's immutable identity (spec section 3): name, the one
product variable, the ingredient list, and which execution modes it provides
(spec section 4.2: diagnostic-only units provide NL but no TL/AD). -/
structure Recipe where
  rname : String
  product : String
  ingredients : List String
  hasTL : Bool
  hasAD : Bool
deriving DecidableEq

/-- The documented error taxonomy (spec section 7), plus the specific error of
spec section 4.2 line for NL-only units appearing in a TL/AD plan. -/
inductive VaderError where
  | duplicateUnit (n : String)
  | unknownUnit (n : String)
  | unresolvableVariable (v : String)
  | cyclicDependency (v : String)
  | missingIngredientMetadata (k : String)
  | executionFailure (u v : String)
  | missingTrajectory
  | noLinearizedModel (u : String)
deriving DecidableEq

/-- The resolution-time errors of the documented taxonomy: `UnknownUnit`,
`UnresolvableVariable`, `CyclicDependency`. -/
def isResolutionError : VaderError → Bool
  | .unknownUnit _ => true
  | .unresolvableVariable _ => true
  | .cyclicDependency _ => true
  | _ => false

/-- Cookbook (spec section 3): variable name to priority-ordered candidate
unit names. -/
def Cookbook : Type := List (String × List String)

/-- Unit registry, already populated (spec section 4.1); `create` is lookup by
unit name. -/
def Registry : Type := List Recipe

/-- Look a unit up by name (`RecipeFactory::create`). -/
def Registry.create (reg : Registry) (n : String) : Option Recipe :=
  reg.find? (fun r => r.rname == n)

/-- Cookbook lookup `C[v]` (spec section 4.3 step 3): the candidate list of
the first entry keyed by `v`, if any. -/
def lookupCB : Cookbook → String → Option (List String)
  | [], _ => none
  | (k, cs) :: rest, v => if v = k then some cs else lookupCB rest v

/-- Working state of a resolution call: the memo of variables already resolved
in this call, and the plan built so far (spec section 4.3). -/
structure RState where
  resolved : List String
  plan : List Recipe
deriving DecidableEq

/-- The empty resolution state. -/
def initState : RState := ⟨[], []⟩

/-- Resolve each ingredient in order with resolver `rv`, threading the state;
the first failure is returned (spec section 4.3 step 4). -/
def resolveIngsWith (rv : RState → String → Option (Except VaderError RState)) :
    RState → List String → Option (Except VaderError RState)
  | st, [] => some (.ok st)
  | st, i :: rest =>
    match rv st i with
    | none => none
    | some (.error e) => some (.error e)
    | some (.ok st') => resolveIngsWith rv st' rest

/-- Try the candidate unit names for `v` in priority order (spec section 4.3
steps 4-5): instantiate the candidate (`UnknownUnit` on a bad name, a startup
error that aborts), resolve its ingredients, and on success append the unit
and mark `v` resolved.  A candidate that fails (including one whose product is
not `v`, which cannot derive `v`) is abandoned with the original state
restored (rollback) before the next candidate; when no candidate succeeds the
result is `UnresolvableVariable`. -/
def tryCandsWith (reg : Registry)
    (ri : RState → List String → Option (Except VaderError RState))
    (st : RState) (v : String) : List String → Option (Except VaderError RState)
  | [] => some (.error (.unresolvableVariable v))
  | c :: rest =>
    match reg.create c with
    | none => some (.error (.unknownUnit c))
    | some r =>
      if r.product == v then
        match ri st r.ingredients with
        | none => none
        | some (.ok st') =>
          some (.ok { resolved := v :: st'.resolved, plan := st'.plan ++ [r] })
        | some (.error _) => tryCandsWith reg ri st v rest
      else tryCandsWith reg ri st v rest

/-- Depth-first resolution of one variable (spec section 4.3 steps 1-5):
trivial success when `v` is available or memoised, `CyclicDependency` when `v`
is already on the call stack, `UnresolvableVariable` when the cookbook has no
entry, otherwise try the candidates with `v` pushed on the stack.  `fuel`
bounds the recursion depth; `resolve` supplies fuel proven sufficient
(`resolveVarF_total`), so the `none` outcome never occurs there. -/
def resolveVarF (C : Cookbook) (reg : Registry) (A : List String) :
    Nat → List String → RState → String → Option (Except VaderError RState)
  | 0, _, _, _ => none
  | fuel + 1, stack, st, v =>
    if v ∈ A ∨ v ∈ st.resolved then some (.ok st)
    else if v ∈ stack then some (.error (.cyclicDependency v))
    else
      match lookupCB C v with
      | none => some (.error (.unresolvableVariable v))
      | some cands =>
        tryCandsWith reg (resolveIngsWith (resolveVarF C reg A fuel (v :: stack)))
          st v cands

/-- The number of cookbook keys not currently on the resolution stack; the
measure that bounds the depth of the search. -/
def numFree (C : Cookbook) (stack : List String) : Nat :=
  ((C.map Prod.fst).filter (fun k => !decide (k ∈ stack))).length

/-- `resolve(A, R, C)` (spec section 4.3): resolve every requested variable,
returning the de-duplicated plan in dependency order, or the first resolution
error.  The fallback branch is unreachable (`resolve_fuel_sufficient`). -/
def resolve (C : Cookbook) (reg : Registry) (A R : List String) :
    Except VaderError (List Recipe) :=
  match resolveIngsWith (resolveVarF C reg A (C.length + 1) []) initState R with
  | some r => r.map RState.plan
  | none => .error (.cyclicDependency "")

/-- The three execution modes (spec section 4.4). -/
inductive Mode where
  | NL
  | TL
  | AD
deriving DecidableEq

/-- Run a plan in NL mode (spec section 4.4): iterate in forward order,
dispatch each unit's NL kernel through the kernel table, abort on the first
unit failure with `ExecutionFailure(unitName, variable)`. -/
def runPlanNL (kernels : String → Option (FieldSet → Option (FieldSet × Bool))) :
    List Recipe → FieldSet → Except VaderError FieldSet
  | [], fs => .ok fs
  | r :: rest, fs =>
    match kernels r.rname with
    | none => .error (.unknownUnit r.rname)
    | some k =>
      match k fs with
      | some (fs', true) => runPlanNL kernels rest fs'
      | _ => .error (.executionFailure r.rname r.product)

/-- Modelled from the spec: the Executor (spec sections 4.2 and 4.4).  A TL or
AD plan containing a unit that does not provide that mode is rejected with the
specific error for that unit rather than the unit being skipped; the TL/AD
numeric kernels themselves are out of scope of the excerpt, so after the
capability gate the TL/AD branches return the store unchanged. -/
def executePlan (kernels : String → Option (FieldSet → Option (FieldSet × Bool)))
    (mode : Mode) (plan : List Recipe) (fs : FieldSet) :
    Except VaderError FieldSet :=
  match mode with
  | .NL => runPlanNL kernels plan fs
  | .TL =>
    match plan.find? (fun r => !r.hasTL) with
    | some r => .error (.noLinearizedModel r.rname)
    | none => .ok fs
  | .AD =>
    match plan.find? (fun r => !r.hasAD) with
    | some r => .error (.noLinearizedModel r.rname)
    | none => .ok fs

/-- Plan ordering invariant (spec section 3, invariant (b)): every unit's
ingredients are available initially or produced by an earlier unit of the
plan. -/
def planOrderedB (A : List String) : List Recipe → Bool
  | [] => true
  | r :: rest =>
    decide (∀ i ∈ r.ingredients, i ∈ A) && planOrderedB (r.product :: A) rest

/-- Invariant carried by the resolution state: the plan built so far is
well-ordered with unique products, every product is memoised as resolved, and
every resolved variable is available or produced by the plan. -/
def StInv (A : List String) (st : RState) : Prop :=
  planOrderedB A st.plan = true ∧
  (st.plan.map Recipe.product).Nodup ∧
  (∀ r ∈ st.plan, r.product ∈ st.resolved) ∧
  (∀ x ∈ st.resolved, x ∈ A ∨ x ∈ st.plan.map Recipe.product)

/-- Correctness contract of a one-variable resolver running with call stack
`stk`: a successful call preserves the invariant, only grows the memo, leaves
the target available or memoised, and memoises only variables not on the
stack. -/
def ResolveOkSpec (A stk : List String)
    (rv : RState → String → Option (Except VaderError RState)) : Prop :=
  ∀ st v st', rv st v = some (Except.ok st') → StInv A st →
    StInv A st' ∧ st.resolved ⊆ st'.resolved ∧ (v ∈ A ∨ v ∈ st'.resolved) ∧
    (∀ x ∈ st'.resolved, x ∉ st.resolved → x ∉ stk)

/-- Error contract of a one-variable resolver: failures carry one of the
documented resolution-error kinds. -/
def ResolveErrSpec
    (rv : RState → String → Option (Except VaderError RState)) : Prop :=
  ∀ st v e, rv st v = some (Except.error e) → isResolutionError e = true

/-! ### Concrete inputs used by the scenario theorem and the witnesses -/

/-- A field of constant value with no metadata. -/
def constField (np nl : Nat) (v : ℚ) : Field :=
  ⟨np, nl, fun _ _ => v, []⟩

/-- A field of constant value with a metadata bag. -/
def constFieldMeta (np nl : Nat) (v : ℚ) (md : List (String × MetaVal)) : Field :=
  ⟨np, nl, fun _ _ => v, md⟩

/-- Scenario 1 unit: `AirTemperature_A` producing `air_temperature` from
`theta` and `exner` (VaderParameters.h default cookbook, kernel
`evalAirTemperature`). -/
def airTemperatureRecipe : Recipe :=
  ⟨"AirTemperature_A", "air_temperature", ["theta", "exner"], true, true⟩

/-- Scenario 1 cookbook. -/
def cookbook1 : Cookbook := [("air_temperature", ["AirTemperature_A"])]

/-- Scenario 1 registry. -/
def registry1 : Registry := [airTemperatureRecipe]

/-- Scenario 1 NL kernel table: `AirTemperature_A` executes
`evalAirTemperature`. -/
def kernelTable1 : String → Option (FieldSet → Option (FieldSet × Bool)) :=
  fun n => if n = "AirTemperature_A" then some evalAirTemperature else none

/-- Scenario 1 store: `theta = 300`, `exner = 0.95`, one grid point and level,
with the product field allocated. -/
def store1 : FieldSet := fun n =>
  if n = "theta" then some (constField 1 1 300)
  else if n = "exner" then some (constField 1 1 (19 / 20))
  else if n = "air_temperature" then some (constField 1 1 0)
  else none

/-- `AirPressureToKappa_A` as declared by its header (AirPressureToKappa.h
lines 33-58): a diagnostic-only unit overriding `executeNL` only; its doc
comment states it does not provide TL/AD algorithms.  Its product/ingredient
variable names are modelled from the header's description (the .cc file is not
part of the excerpt); only the absent TL/AD capability matters here. -/
def airPressureToKappaRecipe : Recipe :=
  ⟨"AirPressureToKappa_A", "kappa", ["air_pressure_levels"], false, false⟩

/-- Witness store for the total-mass kernel. -/
def storeMt : FieldSet := fun n =>
  if n = "m_v" then some (constField 1 1 (1 / 2))
  else if n = "m_ci" then some (constField 1 1 (1 / 4))
  else if n = "m_cl" then some (constField 1 1 (1 / 8))
  else if n = "m_r" then some (constField 1 1 (1 / 8))
  else if n = "m_t" then some (constField 1 1 0)
  else none

/-- Witness store for the relative-humidity kernel: the raw ratio is
`30/20 * 100 = 150` and the product field carries `cap_super_sat = true`. -/
def storeRh : FieldSet := fun n =>
  if n = "specific_humidity" then some (constField 1 1 30)
  else if n = "qsat" then some (constField 1 1 20)
  else if n = "relative_humidity" then
    some (constFieldMeta 1 1 0 [("cap_super_sat", MetaVal.b true)])
  else none

/-- Witness store for the total-relative-humidity kernel: the raw ratio is
`(3+0+0+0)/2 * 100 = 150`, and the product field even carries
`cap_super_sat = true`, which this kernel ignores. -/
def storeRht : FieldSet := fun n =>
  if n = "specific_humidity" then some (constField 1 1 3)
  else if n = "mass_content_of_cloud_liquid_water_in_atmosphere_layer" then
    some (constField 1 1 0)
  else if n = "mass_content_of_cloud_ice_in_atmosphere_layer" then
    some (constField 1 1 0)
  else if n = "qrain" then some (constField 1 1 0)
  else if n = "qsat" then some (constField 1 1 2)
  else if n = "rht" then
    some (constFieldMeta 1 1 0 [("cap_super_sat", MetaVal.b true)])
  else none

/-- Failing input for `evalParamAParamB`: all six required fields present, but
the `height` field's metadata bag lacks `boundary_layer_index`. -/
def storeParamAB : FieldSet := fun n =>
  if n = "height" then some (constField 1 2 1)
  else if n = "height_levels" then some (constField 1 2 1)
  else if n = "air_pressure_levels_minus_one" then some (constField 1 2 1)
  else if n = "specific_humidity" then some (constField 1 2 1)
  else if n = "param_a" then some (constField 1 2 1)
  else if n = "param_b" then some (constField 1 2 1)
  else none

/-- Dummy transcendental operations for evaluating `evalParamAParamB` at the
failing input (the returned status does not depend on them). -/
def zeroOps : RealOps := ⟨fun _ => 0, fun _ _ => 0⟩

/-- Dummy constants for evaluating `evalParamAParamB` at the failing input. -/
def oneConstants : MoConstants := ⟨1, 1, 1, 1⟩

/-! ## Theorems -/

theorem FieldSet.lookup_set_self (fs : FieldSet) (k : String) (f : Field) :
    (fs.set k f).lookup k = some f := by
  simp [FieldSet.set, FieldSet.lookup]

/-- C8: `evalTotalMassMoistAir` writes, at every grid point and level,
`m_t(i,j) = 1 + m_v(i,j) + m_ci(i,j) + m_cl(i,j) + m_r(i,j)` (one plus the sum
of the moisture masses) and returns `true` whenever its five named fields are
present. -/
theorem evalTotalMassMoistAir_spec (fs : FieldSet) (mv mci mcl mr mt : Field)
    (h1 : fs.lookup "m_v" = some mv) (h2 : fs.lookup "m_ci" = some mci)
    (h3 : fs.lookup "m_cl" = some mcl) (h4 : fs.lookup "m_r" = some mr)
    (h5 : fs.lookup "m_t" = some mt) :
    ∃ fs' mt', evalTotalMassMoistAir fs = some (fs', true) ∧
      fs'.lookup "m_t" = some mt' ∧
      ∀ i j, i < mt.npoints → j < mt.nlevels →
        mt'.vals i j
          = 1 + mv.vals i j + mci.vals i j + mcl.vals i j + mr.vals i j := by
  unfold evalTotalMassMoistAir
  rw [h1, h2, h3, h4, h5]
  refine ⟨_, _, rfl, FieldSet.lookup_set_self fs "m_t" _, ?_⟩
  intro i j hi hj
  simp [hi, hj]

/-- Witness for C8: on a concrete store with `m_v + m_ci + m_cl + m_r = 1`,
the total mass comes out as `2`. -/
theorem evalTotalMassMoistAir_spec_witness :
    ∃ fs' mt', evalTotalMassMoistAir storeMt = some (fs', true) ∧
      fs'.lookup "m_t" = some mt' ∧ mt'.vals 0 0 = 2 := by
  obtain ⟨fs', mt', he, hl, hp⟩ :=
    evalTotalMassMoistAir_spec storeMt _ _ _ _ _ rfl rfl rfl rfl rfl
  refine ⟨fs', mt', he, hl, ?_⟩
  rw [hp 0 0 (by decide) (by decide)]
  norm_num [constField]

/-- C9: `evalTotalRelativeHumidity` writes
`(q + qcl + qci + qrain)/qsat * 100` floored at `0`; values above `100` always
pass through.  The definition consults no metadata flag, so this holds for
every store, in particular stores whose `rht` field carries
`cap_super_sat = true` (see the witness). -/
theorem evalTotalRelativeHumidity_no_cap (fs : FieldSet)
    (q qcl qci qrain qsat rht : Field)
    (h1 : fs.lookup "specific_humidity" = some q)
    (h2 : fs.lookup "mass_content_of_cloud_liquid_water_in_atmosphere_layer"
            = some qcl)
    (h3 : fs.lookup "mass_content_of_cloud_ice_in_atmosphere_layer" = some qci)
    (h4 : fs.lookup "qrain" = some qrain)
    (h5 : fs.lookup "qsat" = some qsat)
    (h6 : fs.lookup "rht" = some rht) :
    ∃ fs' rht', evalTotalRelativeHumidity fs = some (fs', true) ∧
      fs'.lookup "rht" = some rht' ∧
      ∀ i j, i < rht.npoints → j < rht.nlevels →
        rht'.vals i j
          = max 0 ((q.vals i j + qcl.vals i j + qci.vals i j + qrain.vals i j)
                     / qsat.vals i j * 100) ∧
        (100 < (q.vals i j + qcl.vals i j + qci.vals i j + qrain.vals i j)
                 / qsat.vals i j * 100 →
          rht'.vals i j
            = (q.vals i j + qcl.vals i j + qci.vals i j + qrain.vals i j)
                / qsat.vals i j * 100) := by
  unfold evalTotalRelativeHumidity
  rw [h1, h2, h3, h4, h5, h6]
  refine ⟨_, _, rfl, FieldSet.lookup_set_self fs "rht" _, ?_⟩
  intro i j hi hj
  simp only [hi, hj, and_self, if_true]
  rcases lt_or_le ((q.vals i j + qcl.vals i j + qci.vals i j + qrain.vals i j)
      / qsat.vals i j * 100) 0 with hneg | hpos
  · rw [if_pos hneg]
    exact ⟨(max_eq_left hneg.le).symm, fun hgt => absurd hgt (by linarith)⟩
  · rw [if_neg (not_lt.mpr hpos)]
    exact ⟨(max_eq_right hpos).symm, fun _ => rfl⟩

/-- Witness for C9: with raw ratio `150` and `cap_super_sat = true` set on the
product field, the output is still `150` (no capping). -/
theorem evalTotalRelativeHumidity_no_cap_witness :
    ∃ fs' rht', evalTotalRelativeHumidity storeRht = some (fs', true) ∧
      fs'.lookup "rht" = some rht' ∧ rht'.vals 0 0 = 150 := by
  obtain ⟨fs', rht', he, hl, hp⟩ :=
    evalTotalRelativeHumidity_no_cap storeRht _ _ _ _ _ _ rfl rfl rfl rfl rfl rfl
  refine ⟨fs', rht', he, hl, ?_⟩
  rw [(hp 0 0 (by decide) (by decide)).2 (by norm_num [constFieldMeta, constField])]
  norm_num [constFieldMeta, constField]

/-- C1: `evalRelativeHumidity` computes `q/qsat*100`; when the product field's
metadata flag `cap_super_sat` is `true` the written value is that ratio capped
above at `100` and floored below at `0`; when the flag is absent or `false`
(`getFlag` yields `false` in both cases) the written value is only floored at
`0`, so values above `100` pass through unmodified. -/
theorem evalRelativeHumidity_cap_spec (fs : FieldSet) (q qs rh : Field)
    (hq : fs.lookup "specific_humidity" = some q)
    (hs : fs.lookup "qsat" = some qs)
    (hr : fs.lookup "relative_humidity" = some rh) :
    ∃ fs' rh', evalRelativeHumidity fs = some (fs', true) ∧
      fs'.lookup "relative_humidity" = some rh' ∧
      ∀ i j, i < rh.npoints → j < rh.nlevels →
        (getFlag rh "cap_super_sat" = true →
          rh'.vals i j = min 100 (max (q.vals i j / qs.vals i j * 100) 0)) ∧
        (getFlag rh "cap_super_sat" = false →
          rh'.vals i j = max (q.vals i j / qs.vals i j * 100) 0 ∧
          (100 < q.vals i j / qs.vals i j * 100 →
            rh'.vals i j = q.vals i j / qs.vals i j * 100)) := by
  unfold evalRelativeHumidity
  rw [hq, hs, hr]
  refine ⟨_, _, rfl, FieldSet.lookup_set_self fs "relative_humidity" _, ?_⟩
  intro i j hi hj
  constructor
  · intro hcap
    simp only [hi, hj, and_self, if_true, hcap, true_and]
    rcases lt_or_le 100 (max (q.vals i j / qs.vals i j * 100) 0) with hgt | hle
    · rw [if_pos hgt, min_eq_left hgt.le]
    · rw [if_neg (not_lt.mpr hle), min_eq_right hle]
  · intro hcap
    simp only [hi, hj, and_self, if_true, hcap, false_and, if_false]
    exact ⟨rfl, fun hgt => max_eq_left (by linarith)⟩

/-- Witness for C1: with `cap_super_sat = true` and raw ratio `150`, the
written value is `100`. -/
theorem evalRelativeHumidity_cap_spec_witness :
    ∃ fs' rh', evalRelativeHumidity storeRh = some (fs', true) ∧
      fs'.lookup "relative_humidity" = some rh' ∧ rh'.vals 0 0 = 100 := by
  obtain ⟨fs', rh', he, hl, hp⟩ :=
    evalRelativeHumidity_cap_spec storeRh _ _ _ rfl rfl rfl
  refine ⟨fs', rh', he, hl, ?_⟩
  rw [(hp 0 0 (by decide) (by decide)).1 (by decide)]
  norm_num [constField, constFieldMeta]

/-- C10: a recipe class that overrides neither virtual has
`requiresSetup() = false` and `setup(fieldStore) = true` for every field
store, exactly the RecipeBase.h line 40-41 defaults, so its setup step can
never fail. -/
theorem default_recipe_setup_spec (fs : FieldSet) :
    recipeRequiresSetup ⟨none, none⟩ = false ∧
    recipeSetup ⟨none, none⟩ fs = true :=
  ⟨rfl, rfl⟩

/-- C3: the parameter set of `AirPressureToKappa_A` contains a required
parameter (`RequiredParameter<std::string> name{"recipe name"}`,
AirPressureToKappa.h line 29), contradicting the claim and the design rule
documented in VaderParameters.h lines 30-31. -/
theorem airPressureToKappa_has_required_param :
    hasRequiredParam airPressureToKappa_AParameters = true := by decide

/-- C4: at the failing input (all six fields present, `height` metadata
lacking `boundary_layer_index`) `evalParamAParamB` proceeds and returns
`true`, not `false` as the claim states. -/
theorem evalParamAParamB_missing_metadata_returns_true :
    ∃ h, storeParamAB.lookup "height" = some h ∧
      h.metadata.lookup "boundary_layer_index" = none ∧
      (evalParamAParamB zeroOps oneConstants storeParamAB).map Prod.snd
        = some true :=
  ⟨constField 1 2 1, rfl, rfl, rfl⟩

/-- C5 counterexample: it is not the case that every NL leaf kernel validates
all the field names it accesses — `evalAirPressureLevels` checks nothing. -/
theorem nl_kernels_validate_counterexample :
    ¬ ∀ k ∈ moNLKernelSigs, ∀ n ∈ k.accessed, n ∈ k.checked := by decide

/-- C5 amended: every NL leaf kernel of model2geovals_varchange.cc except
`evalAirPressureLevels` passes every field name it accesses to
`checkFieldSetContent` before reading or writing it. -/
theorem nl_kernels_validate_amended :
    ∀ k ∈ moNLKernelSigs, k.kname ≠ "evalAirPressureLevels" →
      ∀ n ∈ k.accessed, n ∈ k.checked := by decide

/-- Witness for the amended C5, at the air-temperature kernel and the field
name `theta`. -/
theorem nl_kernels_validate_amended_witness :
    "theta" ∈ evalAirTemperatureSig.checked :=
  nl_kernels_validate_amended evalAirTemperatureSig (by decide) (by decide)
    "theta" (by decide)

/-- C6 (scenario 1): with cookbook `air_temperature -> [AirTemperature_A]`,
available variables `theta` and `exner`, resolving `air_temperature` yields the
one-unit plan, and NL execution of that plan on `theta = 300`, `exner = 0.95`
produces `air_temperature = 285` at the single grid point and level. -/
theorem scenario1_air_temperature :
    resolve cookbook1 registry1 ["theta", "exner"] ["air_temperature"]
      = Except.ok [airTemperatureRecipe] ∧
    ∃ fs' atf, runPlanNL kernelTable1 [airTemperatureRecipe] store1
        = Except.ok fs' ∧
      fs'.lookup "air_temperature" = some atf ∧ atf.vals 0 0 = 285 := by
  refine ⟨rfl, _, _, rfl, rfl, ?_⟩
  norm_num [constField]

/-- C7: a plan containing a unit that provides no TL (resp. no AD) algorithm
is rejected in TL (resp. AD) mode with the specific error naming an NL-only
unit of the plan, rather than the unit being skipped. -/
theorem tlad_rejects_nl_only_unit
    (kernels : String → Option (FieldSet → Option (FieldSet × Bool)))
    (plan : List Recipe) (fs : FieldSet) (u : Recipe) (hu : u ∈ plan) :
    (u.hasTL = false →
      ∃ w, executePlan kernels Mode.TL plan fs
          = Except.error (VaderError.noLinearizedModel w) ∧
        ∃ r ∈ plan, r.rname = w ∧ r.hasTL = false) ∧
    (u.hasAD = false →
      ∃ w, executePlan kernels Mode.AD plan fs
          = Except.error (VaderError.noLinearizedModel w) ∧
        ∃ r ∈ plan, r.rname = w ∧ r.hasAD = false) := by
  constructor
  · intro hTL
    cases hf : plan.find? (fun r => !r.hasTL) with
    | none =>
      exfalso
      have hall := List.find?_eq_none.mp hf u hu
      simp [hTL] at hall
    | some r =>
      refine ⟨r.rname, by simp [executePlan, hf], r,
        List.mem_of_find?_eq_some hf, rfl, ?_⟩
      have hp := List.find?_some hf
      simpa using hp
  · intro hAD
    cases hf : plan.find? (fun r => !r.hasAD) with
    | none =>
      exfalso
      have hall := List.find?_eq_none.mp hf u hu
      simp [hAD] at hall
    | some r =>
      refine ⟨r.rname, by simp [executePlan, hf], r,
        List.mem_of_find?_eq_some hf, rfl, ?_⟩
      have hp := List.find?_some hf
      simpa using hp

/-- Witness for C7: the diagnostic-only unit `AirPressureToKappa_A` in a
one-unit plan is rejected in both TL and AD modes. -/
theorem tlad_rejects_nl_only_unit_witness :
    (∃ w, executePlan (fun _ => none) Mode.TL [airPressureToKappaRecipe]
          (fun _ => none)
        = Except.error (VaderError.noLinearizedModel w) ∧
      ∃ r ∈ [airPressureToKappaRecipe], r.rname = w ∧ r.hasTL = false) ∧
    (∃ w, executePlan (fun _ => none) Mode.AD [airPressureToKappaRecipe]
          (fun _ => none)
        = Except.error (VaderError.noLinearizedModel w) ∧
      ∃ r ∈ [airPressureToKappaRecipe], r.rname = w ∧ r.hasAD = false) := by
  have h := tlad_rejects_nl_only_unit (fun _ => none) [airPressureToKappaRecipe]
    (fun _ => none) airPressureToKappaRecipe (by simp)
  exact ⟨h.1 rfl, h.2 rfl⟩

/-! ### Resolver soundness (towards the claim about resolve) -/

theorem length_filter_mono {α : Type} (p q : α → Bool)
    (h : ∀ x, q x = true → p x = true) :
    ∀ l : List α, (l.filter q).length ≤ (l.filter p).length := by
  intro l
  induction l with
  | nil => simp
  | cons a t ih =>
    cases hqa : q a with
    | false =>
      cases hpa : p a with
      | false => simpa [List.filter_cons, hqa, hpa] using ih
      | true =>
        simp [List.filter_cons, hqa, hpa]
        omega
    | true =>
      have hpa := h a hqa
      simpa [List.filter_cons, hqa, hpa] using ih

theorem length_filter_lt {α : Type} (p q : α → Bool)
    (h : ∀ x, q x = true → p x = true) (x : α) (hp : p x = true)
    (hq : q x = false) :
    ∀ l : List α, x ∈ l → (l.filter q).length < (l.filter p).length := by
  intro l
  induction l with
  | nil => intro hx; cases hx
  | cons a t ih =>
    intro hx
    rcases List.mem_cons.mp hx with rfl | hxt
    · simp [List.filter_cons, hq, hp]
      have := length_filter_mono p q h t
      omega
    · cases hqa : q a with
      | false =>
        cases hpa : p a with
        | false => simpa [List.filter_cons, hqa, hpa] using ih hxt
        | true =>
          simp [List.filter_cons, hqa, hpa]
          have := ih hxt
          omega
      | true =>
        have hpa := h a hqa
        simp [List.filter_cons, hqa, hpa]
        exact ih hxt

theorem mem_keys_of_lookupCB {C : Cookbook} {v : String} {cs : List String}
    (h : lookupCB C v = some cs) : v ∈ C.map Prod.fst := by
  induction C with
  | nil => simp [lookupCB] at h
  | cons p rest ih =>
    rcases p with ⟨k, l⟩
    by_cases hv : v = k
    · simp [hv]
    · rw [lookupCB, if_neg hv] at h
      exact List.mem_cons_of_mem _ (ih h)

theorem numFree_lt (C : Cookbook) (stack : List String) (v : String)
    (hk : v ∈ C.map Prod.fst) (hs : v ∉ stack) :
    numFree C (v :: stack) < numFree C stack := by
  apply length_filter_lt _ _ ?_ v ?_ ?_ _ hk
  · intro x hx
    simp only [Bool.not_eq_true', decide_eq_false_iff_not, List.mem_cons,
      not_or] at hx ⊢
    exact hx.2
  · simpa using hs
  · simp

theorem planOrderedB_append (r : Recipe) :
    ∀ (plan : List Recipe) (A : List String), planOrderedB A plan = true →
      (∀ i ∈ r.ingredients, i ∈ A ∨ i ∈ plan.map Recipe.product) →
      planOrderedB A (plan ++ [r]) = true := by
  intro plan
  induction plan with
  | nil =>
    intro A _ hmem
    have hing : ∀ i ∈ r.ingredients, i ∈ A := by
      intro i hi
      rcases hmem i hi with h1 | h1
      · exact h1
      · simp at h1
    simpa [planOrderedB] using hing
  | cons p rest ih =>
    intro A h hmem
    simp only [List.cons_append, planOrderedB, Bool.and_eq_true,
      decide_eq_true_eq] at h ⊢
    refine ⟨h.1, ih (p.product :: A) h.2 ?_⟩
    intro i hi
    rcases hmem i hi with hA | hprod
    · exact Or.inl (List.mem_cons_of_mem _ hA)
    · simp only [List.map_cons, List.mem_cons] at hprod
      rcases hprod with rfl | hrest
      · exact Or.inl (List.mem_cons_self _ _)
      · exact Or.inr hrest

theorem resolveIngsWith_ok {A stk : List String}
    {rv : RState → String → Option (Except VaderError RState)}
    (hrv : ResolveOkSpec A stk rv) :
    ∀ (ings : List String) (st st' : RState),
      resolveIngsWith rv st ings = some (Except.ok st') → StInv A st →
      StInv A st' ∧ st.resolved ⊆ st'.resolved ∧
      (∀ i ∈ ings, i ∈ A ∨ i ∈ st'.resolved) ∧
      (∀ x ∈ st'.resolved, x ∉ st.resolved → x ∉ stk) := by
  intro ings
  induction ings with
  | nil =>
    intro st st' h hst
    simp only [resolveIngsWith, Option.some.injEq, Except.ok.injEq] at h
    subst h
    exact ⟨hst, fun x hx => hx, by simp, fun x hx hnx => absurd hx hnx⟩
  | cons i rest ih =>
    intro st st' h hst
    simp only [resolveIngsWith] at h
    cases hrvi : rv st i with
    | none => rw [hrvi] at h; simp at h
    | some r =>
      cases r with
      | error e => rw [hrvi] at h; simp at h
      | ok stm =>
        rw [hrvi] at h
        obtain ⟨hst1, hsub1, hv1, hnew1⟩ := hrv st i stm hrvi hst
        obtain ⟨hst2, hsub2, hmem2, hnew2⟩ := ih stm st' h hst1
        refine ⟨hst2, fun x hx => hsub2 (hsub1 hx), ?_, ?_⟩
        · intro x hx
          rcases List.mem_cons.mp hx with rfl | hxr
          · rcases hv1 with hA | hres
            · exact Or.inl hA
            · exact Or.inr (hsub2 hres)
          · exact hmem2 x hxr
        · intro x hx hnx
          by_cases hxm : x ∈ stm.resolved
          · exact hnew1 x hxm hnx
          · exact hnew2 x hx hxm

theorem resolveIngsWith_err
    {rv : RState → String → Option (Except VaderError RState)}
    (hrv : ResolveErrSpec rv) :
    ∀ (ings : List String) (st : RState) (e : VaderError),
      resolveIngsWith rv st ings = some (Except.error e) →
      isResolutionError e = true := by
  intro ings
  induction ings with
  | nil => intro st e h; simp [resolveIngsWith] at h
  | cons i rest ih =>
    intro st e h
    simp only [resolveIngsWith] at h
    cases hrvi : rv st i with
    | none => rw [hrvi] at h; simp at h
    | some r =>
      cases r with
      | error e' =>
        rw [hrvi] at h
        simp only [Option.some.injEq, Except.error.injEq] at h
        subst h
        exact hrv st i e' hrvi
      | ok stm =>
        rw [hrvi] at h
        exact ih stm e h

theorem resolveIngsWith_total
    {rv : RState → String → Option (Except VaderError RState)}
    (hrv : ∀ st v, rv st v ≠ none) :
    ∀ (ings : List String) (st : RState), resolveIngsWith rv st ings ≠ none := by
  intro ings
  induction ings with
  | nil => intro st; simp [resolveIngsWith]
  | cons i rest ih =>
    intro st
    simp only [resolveIngsWith]
    cases hrvi : rv st i with
    | none => exact absurd hrvi (hrv st i)
    | some r =>
      cases r with
      | error e => simp
      | ok stm => exact ih stm

theorem tryCandsWith_err {reg : Registry}
    {ri : RState → List String → Option (Except VaderError RState)} :
    ∀ (cands : List String) (st : RState) (v : String) (e : VaderError),
      tryCandsWith reg ri st v cands = some (Except.error e) →
      isResolutionError e = true := by
  intro cands
  induction cands with
  | nil =>
    intro st v e h
    simp only [tryCandsWith, Option.some.injEq, Except.error.injEq] at h
    subst h
    rfl
  | cons c rest ih =>
    intro st v e h
    simp only [tryCandsWith] at h
    cases hreg : reg.create c with
    | none =>
      simp only [hreg] at h
      simp only [Option.some.injEq, Except.error.injEq] at h
      subst h
      rfl
    | some r =>
      simp only [hreg] at h
      by_cases hprod : (r.product == v) = true
      · rw [if_pos hprod] at h
        cases hri : ri st r.ingredients with
        | none => simp only [hri] at h; simp at h
        | some riv =>
          cases riv with
          | ok stm => simp only [hri] at h; simp at h
          | error e2 => simp only [hri] at h; exact ih st v e h
      · rw [if_neg hprod] at h
        exact ih st v e h

theorem tryCandsWith_total {reg : Registry}
    {ri : RState → List String → Option (Except VaderError RState)}
    (hri : ∀ (st : RState) (l : List String), ri st l ≠ none) :
    ∀ (cands : List String) (st : RState) (v : String),
      tryCandsWith reg ri st v cands ≠ none := by
  intro cands
  induction cands with
  | nil => intro st v; simp [tryCandsWith]
  | cons c rest ih =>
    intro st v
    simp only [tryCandsWith]
    cases hreg : reg.create c with
    | none => simp [hreg]
    | some r =>
      simp only [hreg]
      by_cases hprod : (r.product == v) = true
      · rw [if_pos hprod]
        cases hri2 : ri st r.ingredients with
        | none => exact absurd hri2 (hri st r.ingredients)
        | some riv =>
          cases riv with
          | ok stm => simp [hri2]
          | error e2 => simp only [hri2]; exact ih st v
      · rw [if_neg hprod]
        exact ih st v

theorem tryCandsWith_ok {A stk : List String} {reg : Registry}
    {rv : RState → String → Option (Except VaderError RState)}
    (hrv : ResolveOkSpec A stk rv) (v : String) (hvstk : v ∈ stk) :
    ∀ (cands : List String) (st st' : RState),
      v ∉ st.resolved → StInv A st →
      tryCandsWith reg (resolveIngsWith rv) st v cands = some (Except.ok st') →
      StInv A st' ∧ st.resolved ⊆ st'.resolved ∧ v ∈ st'.resolved ∧
      (∀ x ∈ st'.resolved, x ∉ st.resolved → x = v ∨ x ∉ stk) := by
  intro cands
  induction cands with
  | nil => intro st st' hv hst h; simp [tryCandsWith] at h
  | cons c rest ih =>
    intro st st' hv hst h
    simp only [tryCandsWith] at h
    cases hreg : reg.create c with
    | none => simp only [hreg] at h; simp at h
    | some r =>
      simp only [hreg] at h
      by_cases hprod : (r.product == v) = true
      · rw [if_pos hprod] at h
        cases hri : resolveIngsWith rv st r.ingredients with
        | none => simp only [hri] at h; simp at h
        | some riv =>
          cases riv with
          | error e2 => simp only [hri] at h; exact ih st st' hv hst h
          | ok stm =>
            simp only [hri] at h
            simp only [Option.some.injEq, Except.ok.injEq] at h
            obtain ⟨hst1, hsub1, hmem1, hnew1⟩ :=
              resolveIngsWith_ok hrv r.ingredients st stm hri hst
            have hveq : r.product = v := by simpa using hprod
            have hvnm : v ∉ stm.resolved := fun hvm => (hnew1 v hvm hv) hvstk
            have hvprod : v ∉ stm.plan.map Recipe.product := by
              intro hvp
              rcases List.mem_map.mp hvp with ⟨u, hu, hup⟩
              have hmem := hst1.2.2.1 u hu
              rw [hup] at hmem
              exact hvnm hmem
            subst h
            refine ⟨⟨?_, ?_, ?_, ?_⟩, ?_, ?_, ?_⟩
            · apply planOrderedB_append r stm.plan A hst1.1
              intro i hi
              rcases hmem1 i hi with hA | hres
              · exact Or.inl hA
              · exact hst1.2.2.2 i hres
            · rw [List.map_append, List.nodup_append]
              refine ⟨hst1.2.1, by simp, ?_⟩
              intro a ha hb
              simp only [List.map_cons, List.map_nil, List.mem_singleton] at hb
              subst hb
              rw [hveq] at ha
              exact hvprod ha
            · intro u hu
              rcases List.mem_append.mp hu with hu1 | hu2
              · exact List.mem_cons_of_mem _ (hst1.2.2.1 u hu1)
              · simp only [List.mem_singleton] at hu2
                subst hu2
                rw [hveq]
                exact List.mem_cons_self _ _
            · intro x hx
              rcases List.mem_cons.mp hx with rfl | hxr
              · right
                rw [List.map_append]
                apply List.mem_append.mpr
                right
                simp [hveq]
              · rcases hst1.2.2.2 x hxr with hA | hpr
                · exact Or.inl hA
                · right
                  rw [List.map_append]
                  exact List.mem_append.mpr (Or.inl hpr)
            · exact fun x hx => List.mem_cons_of_mem _ (hsub1 hx)
            · exact List.mem_cons_self _ _
            · intro x hx hnx
              rcases List.mem_cons.mp hx with rfl | hxr
              · exact Or.inl rfl
              · exact Or.inr (hnew1 x hxr hnx)
      · rw [if_neg hprod] at h
        exact ih st st' hv hst h

theorem resolveVarF_ok (C : Cookbook) (reg : Registry) (A : List String) :
    ∀ (fuel : Nat) (stack : List String),
      ResolveOkSpec A stack (resolveVarF C reg A fuel stack) := by
  intro fuel
  induction fuel with
  | zero =>
    intro stack st v st' h
    simp [resolveVarF] at h
  | succ n ih =>
    intro stack st v st' h hst
    simp only [resolveVarF] at h
    by_cases h1 : v ∈ A ∨ v ∈ st.resolved
    · rw [if_pos h1] at h
      simp only [Option.some.injEq, Except.ok.injEq] at h
      subst h
      exact ⟨hst, fun x hx => hx, h1, fun x hx hnx => absurd hx hnx⟩
    · rw [if_neg h1] at h
      by_cases h2 : v ∈ stack
      · rw [if_pos h2] at h; simp at h
      · rw [if_neg h2] at h
        cases hC : lookupCB C v with
        | none => simp only [hC] at h; simp at h
        | some cands =>
          simp only [hC] at h
          have hv : v ∉ st.resolved := fun hvr => h1 (Or.inr hvr)
          obtain ⟨hst', hsub, hvm, hnew⟩ :=
            tryCandsWith_ok (ih (v :: stack)) v (List.mem_cons_self v stack)
              cands st st' hv hst h
          refine ⟨hst', hsub, Or.inr hvm, ?_⟩
          intro x hx hnx
          rcases hnew x hx hnx with rfl | hns
          · exact h2
          · exact fun hxs => hns (List.mem_cons_of_mem _ hxs)

theorem resolveVarF_err (C : Cookbook) (reg : Registry) (A : List String) :
    ∀ (fuel : Nat) (stack : List String),
      ResolveErrSpec (resolveVarF C reg A fuel stack) := by
  intro fuel stack st v e h
  cases fuel with
  | zero => simp [resolveVarF] at h
  | succ n =>
    simp only [resolveVarF] at h
    by_cases h1 : v ∈ A ∨ v ∈ st.resolved
    · rw [if_pos h1] at h; simp at h
    · rw [if_neg h1] at h
      by_cases h2 : v ∈ stack
      · rw [if_pos h2] at h
        simp only [Option.some.injEq, Except.error.injEq] at h
        subst h
        rfl
      · rw [if_neg h2] at h
        cases hC : lookupCB C v with
        | none =>
          simp only [hC] at h
          simp only [Option.some.injEq, Except.error.injEq] at h
          subst h
          rfl
        | some cands =>
          simp only [hC] at h
          exact tryCandsWith_err cands st v e h

theorem resolveVarF_total (C : Cookbook) (reg : Registry) (A : List String) :
    ∀ (fuel : Nat) (stack : List String) (st : RState) (v : String),
      numFree C stack < fuel → resolveVarF C reg A fuel stack st v ≠ none := by
  intro fuel
  induction fuel with
  | zero => intro stack st v hlt; exact absurd hlt (Nat.not_lt_zero _)
  | succ n ih =>
    intro stack st v hlt
    simp only [resolveVarF]
    by_cases h1 : v ∈ A ∨ v ∈ st.resolved
    · rw [if_pos h1]; simp
    · rw [if_neg h1]
      by_cases h2 : v ∈ stack
      · rw [if_pos h2]; simp
      · rw [if_neg h2]
        cases hC : lookupCB C v with
        | none => simp [hC]
        | some cands =>
          simp only [hC]
          apply tryCandsWith_total
          intro st2 l
          apply resolveIngsWith_total
          intro st3 v3
          apply ih (v :: stack) st3 v3
          have hk := mem_keys_of_lookupCB hC
          have hdec := numFree_lt C stack v hk h2
          omega

theorem resolve_fuel_sufficient (C : Cookbook) (reg : Registry)
    (A R : List String) :
    resolveIngsWith (resolveVarF C reg A (C.length + 1) []) initState R
      ≠ none := by
  apply resolveIngsWith_total
  intro st v
  apply resolveVarF_total
  have hnil : numFree C ([] : List String) = C.length := by
    simp [numFree]
  omega

theorem StInv_init (A : List String) : StInv A initState := by
  refine ⟨rfl, List.nodup_nil, ?_, ?_⟩ <;> simp [initState]

/-- C2: `resolve(A, R, C)` always terminates (it is a total function of its
inputs), and either returns a plan in which every unit's ingredients are
initially available or produced by an earlier unit of the plan
(`planOrderedB`) and no two units produce the same variable (`Nodup` of the
products), or fails with one of the documented resolution-error kinds
(`UnknownUnit`, `UnresolvableVariable`, `CyclicDependency`). -/
theorem resolve_terminates_sound (C : Cookbook) (reg : Registry)
    (A R : List String) :
    (∃ plan, resolve C reg A R = Except.ok plan ∧ planOrderedB A plan = true ∧
      (plan.map Recipe.product).Nodup) ∨
    (∃ e, resolve C reg A R = Except.error e ∧ isResolutionError e = true) := by
  cases hres : resolveIngsWith (resolveVarF C reg A (C.length + 1) [])
      initState R with
  | none => exact absurd hres (resolve_fuel_sufficient C reg A R)
  | some r =>
    cases r with
    | ok st' =>
      obtain ⟨hst', -, -, -⟩ :=
        resolveIngsWith_ok (resolveVarF_ok C reg A (C.length + 1) []) R
          initState st' hres (StInv_init A)
      left
      refine ⟨st'.plan, ?_, hst'.1, hst'.2.1⟩
      unfold resolve
      rw [hres]
      rfl
    | error e =>
      right
      refine ⟨e, ?_,
        resolveIngsWith_err (resolveVarF_err C reg A (C.length + 1) []) R
          initState e hres⟩
      unfold resolve
      rw [hres]
      rfl

end VaderSpec
